import Mathlib

/-!
Verification development for the `diagram_editor` repository.

This file gives a shallow embedding, in Lean 4, of the repository's
obstacle-aware orthogonal arrow router, anchor selector, waypoint cleanup,
diagram state model and undo/redo history, and proves (or refutes) the
documented behavioural properties against that embedding.

Conventions used throughout the embedding:
* JavaScript numbers are modelled as exact rationals (`ℚ`).  All the source
  arithmetic on coordinates is `+ - * /`, `Math.min/max/abs`, plus
  `Math.hypot` used only in `<`-comparisons against constants, so the
  idealisation is faithful up to floating-point rounding.
* `Math.hypot(dx,dy) < c` (with `c ≥ 0`) is modelled as
  `dx^2 + dy^2 < c^2`, which is an exact reformulation over the reals.
* JavaScript's `x || d` fallback on numbers (which replaces both `undefined`
  and `0` by `d`) is modelled by `orDefault`.
* The mutable module-global `diagram.elements` of the MCP server is passed
  explicitly as a `List Elem` argument.
-/

namespace DiagramEditor

/-- 2-D point, mirroring `interface Point { x, y }` of
`src/mcp-server/src/index.ts`. -/
structure Pt where
  x : ℚ
  y : ℚ
deriving DecidableEq, Repr

/-- The four docking sides of a shape
(`'top' | 'bottom' | 'left' | 'right'`). -/
inductive Anchor where
  | top
  | bottom
  | left
  | right
deriving DecidableEq, Repr

/-- Element type discriminant (`type` field of a diagram element):
`component | zone | arrow | note | scenario`. -/
inductive ElType where
  | component
  | zone
  | arrow
  | note
  | scenario
deriving DecidableEq, Repr

/-- A diagram element of the MCP server (`diagram.elements` entries),
restricted to the fields the routing and mutation logic reads:
`id`, `type`, `x`, `y`, optional `width`/`height`, and for arrows the
`from`/`to` references, the two anchors and the waypoint list.  Display
fields (label, color, style, markers) never influence the verified code
paths and are omitted.  `fromId`/`toId` stand for the source's `from`/`to`
(`from` is a Lean keyword). -/
structure Elem where
  id : String
  type : ElType
  x : ℚ := 0
  y : ℚ := 0
  width : Option ℚ := none
  height : Option ℚ := none
  fromId : String := ""
  toId : String := ""
  fromAnchor : Anchor := Anchor.right
  toAnchor : Anchor := Anchor.left
  waypoints : List Pt := []
deriving DecidableEq, Repr

/-- Obstacle rectangle (`interface ElementBounds`). -/
structure ElementBounds where
  id : String
  x : ℚ
  y : ℚ
  width : ℚ
  height : ℚ
deriving DecidableEq, Repr

/-- JavaScript's `v || d` numeric fallback: `undefined` and `0` both give
`d` (`(el as any).width || 100` in the source). -/
def orDefault (v : Option ℚ) (d : ℚ) : ℚ :=
  match v with
  | none => d
  | some w => if w = 0 then d else w

/-- `getAnchorPoint` of `src/mcp-server/src/index.ts`: the world coordinate
of a docking point, with the 100×80 size fallback.  The local
`getAnchorPointLocal` inside `calculateBestAnchors` computes the same
function. -/
def getAnchorPoint (el : Elem) (anchor : Anchor) : Pt :=
  let width := orDefault el.width 100
  let height := orDefault el.height 80
  match anchor with
  | Anchor.top => ⟨el.x + width / 2, el.y⟩
  | Anchor.bottom => ⟨el.x + width / 2, el.y + height⟩
  | Anchor.left => ⟨el.x, el.y + height / 2⟩
  | Anchor.right => ⟨el.x + width, el.y + height / 2⟩

/-- The nested `lineIntersectsLine` helper of `lineIntersectsRect`:
parametric segment–segment intersection; a zero determinant (parallel)
reports no crossing. -/
def lineIntersectsLine (a1 a2 b1 b2 : Pt) : Bool :=
  let det := (a2.x - a1.x) * (b2.y - b1.y) - (b2.x - b1.x) * (a2.y - a1.y)
  if det = 0 then false
  else
    let lam := ((b2.y - b1.y) * (b2.x - a1.x) + (b1.x - b2.x) * (b2.y - a1.y)) / det
    let gam := ((a1.y - a2.y) * (b2.x - a1.x) + (a2.x - a1.x) * (b2.y - a1.y)) / det
    decide (0 ≤ lam) && decide (lam ≤ 1) && decide (0 ≤ gam) && decide (gam ≤ 1)

/-- `lineIntersectsRect(p1, p2, rect, padding)`: does the segment meet the
rectangle expanded by `padding` on all sides? -/
def lineIntersectsRect (p1 p2 : Pt) (rect : ElementBounds) (padding : ℚ) : Bool :=
  let l := rect.x - padding
  let r := rect.x + rect.width + padding
  let t := rect.y - padding
  let b := rect.y + rect.height + padding
  if (p1.x < l ∧ p2.x < l) ∨ (p1.x > r ∧ p2.x > r) then false
  else if (p1.y < t ∧ p2.y < t) ∨ (p1.y > b ∧ p2.y > b) then false
  else
    let pointInRect := fun (p : Pt) =>
      decide (l ≤ p.x) && decide (p.x ≤ r) && decide (t ≤ p.y) && decide (p.y ≤ b)
    if pointInRect p1 || pointInRect p2 then true
    else
      lineIntersectsLine p1 p2 ⟨l, t⟩ ⟨r, t⟩ ||
      lineIntersectsLine p1 p2 ⟨r, t⟩ ⟨r, b⟩ ||
      lineIntersectsLine p1 p2 ⟨r, b⟩ ⟨l, b⟩ ||
      lineIntersectsLine p1 p2 ⟨l, b⟩ ⟨l, t⟩

/-- `getObstacleBounds(excludeIds)`: every non-arrow, non-zone element not
excluded, as padded-able bounds with the 100×80 fallback.  The source reads
the module-global `diagram.elements`; it is the `elements` argument here. -/
def getObstacleBounds (elements : List Elem) (excludeIds : List String) : List ElementBounds :=
  elements.filterMap fun el =>
    if el.type = ElType.arrow ∨ el.type = ElType.zone then none
    else if el.id ∈ excludeIds then none
    else some ⟨el.id, el.x, el.y, orDefault el.width 100, orDefault el.height 80⟩

/-- Squared Euclidean distance.  `Math.hypot(dx,dy) < 10` in the source is
modelled as `dist2 < 100`, an exact reformulation. -/
def dist2 (p q : Pt) : ℚ :=
  (p.x - q.x) ^ 2 + (p.y - q.y) ^ 2

/-- The cross-product magnitude used by the collinearity test of
`cleanupWaypoints`. -/
def crossMag (prev curr next : Pt) : ℚ :=
  (curr.x - prev.x) * (next.y - prev.y) - (curr.y - prev.y) * (next.x - prev.x)

/-- One interior point of the chain survives `cleanupWaypoints` iff it is
neither within distance 10 of its original neighbours nor collinear with
them (|cross| < 1). -/
def keepWaypoint (prev curr next : Pt) : Bool :=
  !(decide (dist2 prev curr < 100) || decide (dist2 curr next < 100)) &&
  !(decide (|crossMag prev curr next| < 1))

/-- The loop of `cleanupWaypoints` over `allPoints = [from, ...waypoints, to]`:
the first argument is `allPoints[i-1]` (always the original predecessor,
kept or not), the list argument is `allPoints[i], allPoints[i+1], …`; the
final point (`to`) is not an interior point and is never emitted. -/
def cleanupChain : Pt → List Pt → List Pt
  | _, [] => []
  | _, [_] => []
  | prev, curr :: next :: rest =>
    if keepWaypoint prev curr next then curr :: cleanupChain curr (next :: rest)
    else cleanupChain curr (next :: rest)

/-- `cleanupWaypoints(waypoints, from, to)` of `src/mcp-server/src/index.ts`
(duplicated verbatim as `cleanupWaypoints` in
`src/src/ui/PropertiesPanel.ts`): single-pass filtering of interior points
against their original neighbours. -/
def cleanupWaypoints (waypoints : List Pt) (fromPt toPt : Pt) : List Pt :=
  if waypoints = [] then []
  else cleanupChain fromPt (waypoints ++ [toPt])

/-- Is the anchor pair opposite-facing (`right↔left`, `bottom↔top`)?
Mirrors the `isOpposite` test of `calculateBestAnchors`. -/
def isOppositePair : Anchor → Anchor → Bool
  | Anchor.right, Anchor.left => true
  | Anchor.left, Anchor.right => true
  | Anchor.bottom, Anchor.top => true
  | Anchor.top, Anchor.bottom => true
  | _, _ => false

/-- The adjusted cost `calculateBestAnchors` minimises, rescaled to stay in
`ℚ`.  The source compares `d` (opposite-facing) against `1.2·d'`
(same-direction), with `d = Math.hypot …` the Euclidean anchor distance.
Both quantities are non-negative, so every `<`/`≤` comparison between two
such costs agrees with the comparison of their squares scaled by `25`:
`25·d²` versus `36·d'²` (since `25·(1.2)² = 36`).  This definition is that
order-isomorphic rescaling, so the selector below chooses exactly the pair
the source chooses. -/
def adjustedCost (fromEl toEl : Elem) (p : Anchor × Anchor) : ℚ :=
  let fp := getAnchorPoint fromEl p.1
  let tp := getAnchorPoint toEl p.2
  let d2 := (tp.x - fp.x) ^ 2 + (tp.y - fp.y) ^ 2
  if isOppositePair p.1 p.2 then 25 * d2 else 36 * d2

/-- The stable iteration order of `calculateBestAnchors`:
`['top', 'bottom', 'left', 'right']`. -/
def anchorOrder : List Anchor :=
  [Anchor.top, Anchor.bottom, Anchor.left, Anchor.right]

/-- All 16 anchor combinations in the source's nested-loop order
(`fromAnchor` outer, `toAnchor` inner). -/
def anchorCombos : List (Anchor × Anchor) :=
  anchorOrder.flatMap fun fa => anchorOrder.map fun ta => (fa, ta)

/-- The minimisation loop of `calculateBestAnchors`: walk the combinations,
keeping the current best pair and its cost; a strictly smaller cost wins
(`adjustedDistance < minDistance`), so the first combination achieving the
minimum is kept.  `none` models the initial `minDistance = Infinity`. -/
def selectBest (fromEl toEl : Elem) :
    List (Anchor × Anchor) → Anchor × Anchor → Option ℚ → Anchor × Anchor
  | [], best, _ => best
  | p :: rest, best, minD =>
    let c := adjustedCost fromEl toEl p
    match minD with
    | none => selectBest fromEl toEl rest p (some c)
    | some m =>
      if c < m then selectBest fromEl toEl rest p (some c)
      else selectBest fromEl toEl rest best (some m)

/-- `calculateBestAnchors(fromElement, toElement)`: the anchor pair with
minimal adjusted cost, initial best `('right','left')` (immediately
replaced since every finite cost beats `Infinity`). -/
def calculateBestAnchors (fromEl toEl : Elem) : Anchor × Anchor :=
  selectBest fromEl toEl anchorCombos (Anchor.right, Anchor.left) none

/-- Anchor classification used by the router: `left`/`right` are
horizontal-facing (`isHorizontalStart`/`isHorizontalEnd`). -/
def isHorizontal : Anchor → Bool
  | Anchor.left => true
  | Anchor.right => true
  | _ => false

/-- Minimum of a list of rationals.  The router only evaluates it on
non-empty lists (the intersecting-obstacle set, or the full obstacle set
which contains it), where it equals the source's
`Infinity`-seeded `Math.min` fold. -/
def listMin : List ℚ → ℚ
  | [] => 0
  | x :: xs => xs.foldl min x

/-- Maximum of a list of rationals; same usage note as `listMin`. -/
def listMax : List ℚ → ℚ
  | [] => 0
  | x :: xs => xs.foldl max x

/-- The router's `isPathClear` helper: no obstacle meets the segment with
padding 25. -/
def isPathClear (obstacles : List ElementBounds) (p1 p2 : Pt) : Bool :=
  !(obstacles.any fun obs => lineIntersectsRect p1 p2 obs 25)

/-- The waypoints computed by the primary branches of
`calculateAutoWaypoints` (both-horizontal shelf, both-vertical lane, mixed
L-shape/detour), before `cleanupWaypoints` runs.  `inter` is the list of
obstacles hit by the direct segment (`intersectingObstacles`); `minX …
maxY` below are its bounding box, `margin = 50`. -/
def primaryWaypoints (fp tp : Pt) (fa ta : Anchor)
    (obstacles inter : List ElementBounds) : List Pt :=
  let margin : ℚ := 50
  let minX := listMin (inter.map fun o => o.x)
  let minY := listMin (inter.map fun o => o.y)
  let maxX := listMax (inter.map fun o => o.x + o.width)
  let maxY := listMax (inter.map fun o => o.y + o.height)
  if isHorizontal fa && isHorizontal ta then
    let aboveY := min (min fp.y tp.y) (minY - margin)
    let belowY := max (max fp.y tp.y) (maxY + margin)
    let distAbove := |fp.y - aboveY| + |tp.y - aboveY|
    let distBelow := |fp.y - belowY| + |tp.y - belowY|
    let routeY := if distAbove ≤ distBelow then aboveY else belowY
    let exitX := if fa = Anchor.right then max fp.x maxX + margin else min fp.x minX - margin
    let entryX := if ta = Anchor.left then min tp.x minX - margin else max tp.x maxX + margin
    if |fp.y - tp.y| > 50 ∨ inter ≠ [] then
      [⟨exitX, fp.y⟩, ⟨exitX, routeY⟩, ⟨entryX, routeY⟩, ⟨entryX, tp.y⟩]
    else
      let midX := (fp.x + tp.x) / 2
      [⟨midX, fp.y⟩, ⟨midX, tp.y⟩]
  else if !isHorizontal fa && !isHorizontal ta then
    let leftX := min (min fp.x tp.x) (minX - margin)
    let rightX := max (max fp.x tp.x) (maxX + margin)
    let distLeft := |fp.x - leftX| + |tp.x - leftX|
    let distRight := |fp.x - rightX| + |tp.x - rightX|
    let routeX := if distLeft ≤ distRight then leftX else rightX
    let exitY := if fa = Anchor.bottom then max fp.y maxY + margin else min fp.y minY - margin
    let entryY := if ta = Anchor.top then min tp.y minY - margin else max tp.y maxY + margin
    if |fp.x - tp.x| > 50 ∨ inter ≠ [] then
      [⟨fp.x, exitY⟩, ⟨routeX, exitY⟩, ⟨routeX, entryY⟩, ⟨tp.x, entryY⟩]
    else
      let midY := (fp.y + tp.y) / 2
      [⟨fp.x, midY⟩, ⟨tp.x, midY⟩]
  else if isHorizontal fa then
    let ip : Pt := ⟨tp.x, fp.y⟩
    if !(isPathClear obstacles fp ip) || !(isPathClear obstacles ip tp) then
      let routeY :=
        if tp.y < fp.y then min (min minY fp.y) tp.y - margin
        else max (max maxY fp.y) tp.y + margin
      let extendX := if fa = Anchor.right then max fp.x maxX + margin else min fp.x minX - margin
      [⟨extendX, fp.y⟩, ⟨extendX, routeY⟩, ⟨tp.x, routeY⟩]
    else [⟨tp.x, fp.y⟩]
  else
    let ip : Pt := ⟨fp.x, tp.y⟩
    if !(isPathClear obstacles fp ip) || !(isPathClear obstacles ip tp) then
      let routeX :=
        if tp.x < fp.x then min (min minX fp.x) tp.x - margin
        else max (max maxX fp.x) tp.x + margin
      let extendY := if fa = Anchor.bottom then max fp.y maxY + margin else min fp.y minY - margin
      [⟨fp.x, extendY⟩, ⟨routeX, extendY⟩, ⟨routeX, tp.y⟩]
    else [⟨fp.x, tp.y⟩]

/-- The fallback branch of `calculateAutoWaypoints`: a wide detour around
the union bounding box of all obstacles (`safeMargin = 60`), accepted
without further verification. -/
def fallbackWaypoints (fp tp : Pt) (fa ta : Anchor)
    (obstacles : List ElementBounds) : List Pt :=
  let safeMargin : ℚ := 60
  let allMinX := listMin (obstacles.map fun o => o.x)
  let allMinY := listMin (obstacles.map fun o => o.y)
  let allMaxX := listMax (obstacles.map fun o => o.x + o.width)
  let allMaxY := listMax (obstacles.map fun o => o.y + o.height)
  let safeY := if fp.y ≤ (allMinY + allMaxY) / 2 then allMinY - safeMargin else allMaxY + safeMargin
  let safeX := if fp.x ≤ (allMinX + allMaxX) / 2 then allMinX - safeMargin else allMaxX + safeMargin
  if isHorizontal fa && isHorizontal ta then
    [⟨fp.x, safeY⟩, ⟨tp.x, safeY⟩]
  else if !isHorizontal fa && !isHorizontal ta then
    [⟨safeX, fp.y⟩, ⟨safeX, tp.y⟩]
  else
    [⟨fp.x + (if isHorizontal fa then (if fa = Anchor.right then safeMargin else -safeMargin) else 0),
      fp.y + (if !isHorizontal fa then (if fa = Anchor.bottom then safeMargin else -safeMargin) else 0)⟩,
     ⟨safeX, safeY⟩,
     ⟨tp.x + (if isHorizontal ta then (if ta = Anchor.right then safeMargin else -safeMargin) else 0),
      tp.y + (if !isHorizontal ta then (if ta = Anchor.bottom then safeMargin else -safeMargin) else 0)⟩]

/-- Consecutive pairs of a point list. -/
def pathSegments (pts : List Pt) : List (Pt × Pt) :=
  pts.zip pts.tail

/-- The final verification loop of `calculateAutoWaypoints`: every
consecutive segment of `[fromPoint, ...cleaned, toPoint]` is clear. -/
def allSegmentsClear (obstacles : List ElementBounds) (pts : List Pt) : Bool :=
  (pathSegments pts).all fun s => isPathClear obstacles s.1 s.2

/-- The routing pipeline of `calculateAutoWaypoints` from the two anchor
points on: direct-segment test with padding 30 (empty waypoints when
clear), primary branch, cleanup, verification of every cleaned segment,
fallback. -/
def routeFromPoints (fp tp : Pt) (fa ta : Anchor) (obstacles : List ElementBounds) : List Pt :=
  let inter := obstacles.filter fun obs => lineIntersectsRect fp tp obs 30
  if inter = [] then []
  else
    let cleaned := cleanupWaypoints (primaryWaypoints fp tp fa ta obstacles inter) fp tp
    if allSegmentsClear obstacles (fp :: cleaned ++ [tp]) then cleaned
    else fallbackWaypoints fp tp fa ta obstacles

/-- The body of `calculateAutoWaypoints` past the manual-waypoint check:
anchor points, obstacle set (excluding the two endpoint ids — the source's
`.filter(Boolean)` drops empty ids), then the routing pipeline. -/
def calcAutoCore (fromEl toEl : Elem) (fa ta : Anchor) (elements : List Elem) : List Pt :=
  routeFromPoints (getAnchorPoint fromEl fa) (getAnchorPoint toEl ta) fa ta
    (getObstacleBounds elements ([fromEl.id, toEl.id].filter fun s => s ≠ ""))

/-- `calculateAutoWaypoints(fromElement, toElement, fromAnchor, toAnchor,
existingWaypoints?)` of `src/mcp-server/src/index.ts`: caller-supplied
non-empty waypoints are returned unchanged; otherwise the router runs. -/
def calculateAutoWaypoints (fromEl toEl : Elem) (fa ta : Anchor)
    (existingWaypoints : Option (List Pt)) (elements : List Elem) : List Pt :=
  match existingWaypoints with
  | some l => if l = [] then calcAutoCore fromEl toEl fa ta elements else l
  | none => calcAutoCore fromEl toEl fa ta elements

/-! ### Editor-side router (src/src/ui/PropertiesPanel.ts)

`PropertiesPanel.calculateOrthogonalWaypoints` is the editor's independent
duplicate of the router: margin 40, collision padding 25, no manual-override
check and no fallback; obstacles are an explicit argument.  Its
`lineIntersectsRect` and `cleanupWaypoints` bodies are verbatim duplicates
of the server's, so those embeddings are shared. -/

/-- The raw waypoints of `calculateOrthogonalWaypoints`, before its final
`cleanupWaypoints` call. -/
def editorRawWaypoints (fp tp : Pt) (fa ta : Anchor)
    (obstacles : List ElementBounds) : List Pt :=
  let margin : ℚ := 40
  let inter := obstacles.filter fun obs => lineIntersectsRect fp tp obs 25
  if inter = [] then
    if isHorizontal fa && isHorizontal ta then
      let midX := (fp.x + tp.x) / 2
      [⟨midX, fp.y⟩, ⟨midX, tp.y⟩]
    else if !isHorizontal fa && !isHorizontal ta then
      let midY := (fp.y + tp.y) / 2
      [⟨fp.x, midY⟩, ⟨tp.x, midY⟩]
    else if isHorizontal fa then [⟨tp.x, fp.y⟩]
    else [⟨fp.x, tp.y⟩]
  else
    let minX := listMin (inter.map fun o => o.x)
    let minY := listMin (inter.map fun o => o.y)
    let maxX := listMax (inter.map fun o => o.x + o.width)
    let maxY := listMax (inter.map fun o => o.y + o.height)
    if isHorizontal fa && isHorizontal ta then
      let routeY := if fp.y < (minY + maxY) / 2 then minY - margin else maxY + margin
      let sx := fp.x + (if fa = Anchor.right then margin else -margin)
      let ex := tp.x + (if ta = Anchor.left then -margin else margin)
      [⟨sx, fp.y⟩, ⟨sx, routeY⟩, ⟨ex, routeY⟩, ⟨ex, tp.y⟩]
    else if !isHorizontal fa && !isHorizontal ta then
      let routeX := if fp.x < (minX + maxX) / 2 then minX - margin else maxX + margin
      let sy := fp.y + (if fa = Anchor.bottom then margin else -margin)
      let ey := tp.y + (if ta = Anchor.top then -margin else margin)
      [⟨fp.x, sy⟩, ⟨routeX, sy⟩, ⟨routeX, ey⟩, ⟨tp.x, ey⟩]
    else if isHorizontal fa then
      let routeY := if tp.y < fp.y then minY - margin else maxY + margin
      let sx := fp.x + (if fa = Anchor.right then margin else -margin)
      [⟨sx, fp.y⟩, ⟨sx, routeY⟩, ⟨tp.x, routeY⟩]
    else
      let routeX := if tp.x < fp.x then minX - margin else maxX + margin
      let sy := fp.y + (if fa = Anchor.bottom then margin else -margin)
      [⟨fp.x, sy⟩, ⟨routeX, sy⟩, ⟨routeX, tp.y⟩]

/-- `calculateOrthogonalWaypoints(from, to, fromAnchor, toAnchor,
obstacles)` of `src/src/ui/PropertiesPanel.ts`. -/
def calculateOrthogonalWaypoints (fp tp : Pt) (fa ta : Anchor)
    (obstacles : List ElementBounds) : List Pt :=
  cleanupWaypoints (editorRawWaypoints fp tp fa ta obstacles) fp tp

/-! ### Diagram state model (src/src/core/State.ts) -/

/-- Non-arrow element kinds of the editor's `DiagramElement` union. -/
inductive SElemKind where
  | component
  | zone
  | note
  | scenario
deriving DecidableEq, Repr

/-- An editor diagram element, restricted to the fields the verified state
operations read: the arrow/non-arrow discriminant and, for arrows, the
`from`/`to` endpoint references and waypoints.  Position and display fields
of non-arrow elements do not influence deletion or history and are
summarised by `x`/`y`. -/
inductive SElem where
  | arrow (fromId toId : String) (waypoints : List Pt)
  | node (kind : SElemKind) (x y : ℚ)
deriving DecidableEq, Repr

/-- `el.type === 'arrow'`. -/
def SElem.isArrow : SElem → Bool
  | SElem.arrow _ _ _ => true
  | SElem.node _ _ _ => false

/-- `el.from === id || el.to === id` (false for non-arrows). -/
def SElem.refersTo : SElem → String → Bool
  | SElem.arrow f t _, id => f = id || t = id
  | SElem.node _ _ _, _ => false

/-- The editor's element collection: `Map<string, DiagramElement>` in
insertion order, modelled as an association list. -/
abbrev ElemMap := List (String × SElem)

/-- `Map.get`: first binding of the key. -/
def mapGet (m : ElemMap) (id : String) : Option SElem :=
  (m.find? fun ke => ke.1 = id).map fun ke => ke.2

/-- `State.deleteElement(id)`: when the target is not an arrow (or is
absent — `get(id)?.type !== 'arrow'` is true for `undefined`), first delete
every arrow whose `from` or `to` is `id`, then delete `id` itself.
(The selection update and event emissions do not touch `elements`.) -/
def deleteElement (m : ElemMap) (id : String) : ElemMap :=
  let cascade :=
    match mapGet m id with
    | some e => !e.isArrow
    | none => true
  let m1 := if cascade then m.filter fun ke => !(ke.2.isArrow && ke.2.refersTo id) else m
  m1.filter fun ke => ke.1 ≠ id

/-- No dangling connector references, in the strong form the spec's data
model states: every arrow's `from` and `to` name an existing non-arrow
element ("must reference shapes that exist in the same diagram"). -/
def noDangling (m : ElemMap) : Prop :=
  ∀ k f t w, (k, SElem.arrow f t w) ∈ m →
    (∃ e, mapGet m f = some e ∧ e.isArrow = false) ∧
    (∃ e, mapGet m t = some e ∧ e.isArrow = false)

/-! ### History (src/src/core/History.ts) -/

/-- A history snapshot: a deep clone of the element map.  Values in the
embedding are immutable, so `cloneElements` is the identity. -/
abbrev Snap := ElemMap

/-- The two stacks of `History`; the head of each list is the most recent
entry (the JS array end, where `push`/`pop` operate).  `shift()` removes
the JS front, i.e. the last list element. -/
structure HistoryState where
  undoStack : List Snap
  redoStack : List Snap
deriving DecidableEq, Repr

/-- `maxSize = 50`. -/
def historyMaxSize : Nat := 50

/-- `History.push(elements)`: push the clone, clear the redo stack, evict
the oldest entry when the stack exceeds `maxSize`. -/
def historyPush (h : HistoryState) (s : Snap) : HistoryState :=
  let u := s :: h.undoStack
  { undoStack := if historyMaxSize < u.length then u.dropLast else u
    redoStack := [] }

/-- `History.undo()`: `null` (state unchanged) when at most one snapshot is
retained; otherwise pop the current snapshot onto the redo stack and return
a clone of the new top. -/
def historyUndo (h : HistoryState) : Option Snap × HistoryState :=
  match h.undoStack with
  | current :: previous :: rest =>
    (some previous,
     { undoStack := previous :: rest, redoStack := current :: h.redoStack })
  | _ => (none, h)

/-- `History.redo()`: `null` when the redo stack is empty; otherwise move
its top back onto the undo stack and return a clone of it. -/
def historyRedo (h : HistoryState) : Option Snap × HistoryState :=
  match h.redoStack with
  | [] => (none, h)
  | next :: rest =>
    (some next, { undoStack := next :: h.undoStack, redoStack := rest })

/-- Iterated `undo`, discarding the returned snapshots. -/
def historyUndoIter : Nat → HistoryState → HistoryState
  | 0, h => h
  | n + 1, h => historyUndoIter n (historyUndo h).2

/-- The slice of `State` the undo/redo round-trip touches: the live element
map, the selection and the history. -/
structure EditorState where
  elements : ElemMap
  selectedIds : List String
  history : HistoryState
deriving DecidableEq, Repr

/-- `State.undo()`: replace the live elements by the returned snapshot (and
clear the selection) when the history yields one; otherwise do nothing. -/
def stateUndo (st : EditorState) : EditorState :=
  match historyUndo st.history with
  | (some els, h') => { elements := els, selectedIds := [], history := h' }
  | (none, h') => { st with history := h' }

/-- `State.redo()`: symmetric to `stateUndo`. -/
def stateRedo (st : EditorState) : EditorState :=
  match historyRedo st.history with
  | (some els, h') => { elements := els, selectedIds := [], history := h' }
  | (none, h') => { st with history := h' }

/-! ### MCP tool handlers (src/mcp-server/src/index.ts) -/

/-- The arguments of the `add_arrow` tool the handler reads. -/
structure AddArrowArgs where
  fromId : String
  toId : String
  fromAnchor : Option Anchor := none
  toAnchor : Option Anchor := none
  waypoints : Option (List Pt) := none

/-- The `add_arrow` handler: look up the endpoints (any element type),
auto-select anchors when missing and both endpoints exist, auto-route
waypoints when both endpoints exist, then append the arrow to the diagram
unconditionally — there is no element-not-found abort on this path.
`newId` models `generateId("arrow")`. -/
def addArrow (elements : List Elem) (args : AddArrowArgs) (newId : String) : List Elem :=
  let fromElement := elements.find? fun el => el.id = args.fromId
  let toElement := elements.find? fun el => el.id = args.toId
  let anchors :=
    match fromElement, toElement with
    | some fe, some te =>
      if args.fromAnchor.isNone ∨ args.toAnchor.isNone then
        let best := calculateBestAnchors fe te
        (args.fromAnchor.getD best.1, args.toAnchor.getD best.2)
      else (args.fromAnchor.getD Anchor.right, args.toAnchor.getD Anchor.left)
    | _, _ => (args.fromAnchor.getD Anchor.right, args.toAnchor.getD Anchor.left)
  let calculatedWaypoints :=
    match fromElement, toElement with
    | some fe, some te =>
      let fromWithId :=
        { fe with
          id := args.fromId
          width := some (orDefault fe.width 100)
          height := some (orDefault fe.height 80) }
      let toWithId :=
        { te with
          id := args.toId
          width := some (orDefault te.width 100)
          height := some (orDefault te.height 80) }
      calculateAutoWaypoints fromWithId toWithId anchors.1 anchors.2 args.waypoints elements
    | _, _ => []
  let arrow : Elem :=
    { id := newId, type := ElType.arrow, fromId := args.fromId, toId := args.toId,
      fromAnchor := anchors.1, toAnchor := anchors.2, waypoints := calculatedWaypoints }
  elements ++ [arrow]

/-- In-place mutation of the first element with the given id
(`diagram.elements.find(...)` followed by `Object.assign`). -/
def updateFirst : List Elem → String → (Elem → Elem) → List Elem
  | [], _, _ => []
  | el :: rest, id, upd =>
    if el.id = id then upd el :: rest else el :: updateFirst rest id upd

/-- The `update_element` handler: `none` models the "element not found"
reply (`요소를 찾을 수 없습니다`), which leaves the diagram untouched;
otherwise `Object.assign(element, updates)` mutates the first element with
the id, modelled as applying an update function `upd` to it. -/
def updateElementMcp (elements : List Elem) (id : String) (upd : Elem → Elem) :
    Option (List Elem) :=
  match elements.find? fun el => el.id = id with
  | none => none
  | some _ => some (updateFirst elements id upd)

/-- The `remove_element` handler: `none` models the "element not found"
reply; otherwise keep arrows not referencing `id` and non-arrows other than
`id`. -/
def removeElement (elements : List Elem) (id : String) : Option (List Elem) :=
  match elements.find? fun el => el.id = id with
  | none => none
  | some _ =>
    some (elements.filter fun el =>
      if el.type = ElType.arrow then el.fromId ≠ id ∧ el.toId ≠ id else el.id ≠ id)

/-! ### Path predicates -/

/-- Orthogonality of a polyline: every consecutive pair of points shares
its x or its y coordinate. -/
def orthoPath : List Pt → Prop
  | p :: q :: rest => (p.x = q.x ∨ p.y = q.y) ∧ orthoPath (q :: rest)
  | _ => True

/-! ## Theorems -/

/-- C3: a non-empty caller-supplied waypoint list is returned unchanged,
whatever the shapes, anchors and obstacles are. -/
theorem manual_waypoints_returned_unchanged (fromEl toEl : Elem) (fa ta : Anchor)
    (l : List Pt) (elements : List Elem) (h : l ≠ []) :
    calculateAutoWaypoints fromEl toEl fa ta (some l) elements = l := by
  simp [calculateAutoWaypoints, h]

/-- Witness for C3 at a concrete input. -/
theorem manual_waypoints_returned_unchanged_witness :
    ([(⟨1, 2⟩ : Pt)] ≠ []) ∧
    calculateAutoWaypoints { id := "a", type := ElType.component }
      { id := "b", type := ElType.component } Anchor.right Anchor.left
      (some [⟨1, 2⟩]) [] = [⟨1, 2⟩] :=
  ⟨by simp,
   manual_waypoints_returned_unchanged _ _ _ _ _ _ (by simp)⟩

/-- C4: when no obstacle's padded bounds (router padding 30) intersect the
direct segment between the two anchor points, the router returns an empty
waypoint list. -/
theorem direct_path_shortcut (fromEl toEl : Elem) (fa ta : Anchor) (elements : List Elem)
    (h : ∀ obs ∈ getObstacleBounds elements ([fromEl.id, toEl.id].filter fun s => s ≠ ""),
      lineIntersectsRect (getAnchorPoint fromEl fa) (getAnchorPoint toEl ta) obs 30 = false) :
    calculateAutoWaypoints fromEl toEl fa ta none elements = [] := by
  have hfilter :
      (getObstacleBounds elements ([fromEl.id, toEl.id].filter fun s => s ≠ "")).filter
        (fun obs => lineIntersectsRect (getAnchorPoint fromEl fa) (getAnchorPoint toEl ta) obs 30)
        = [] := by
    rw [List.filter_eq_nil_iff]
    intro a ha
    simp [h a ha]
  unfold calculateAutoWaypoints calcAutoCore routeFromPoints
  simp only [hfilter]
  simp

/-- Witness for C4 at a concrete input (empty diagram: no obstacles). -/
theorem direct_path_shortcut_witness :
    calculateAutoWaypoints { id := "a", type := ElType.component }
      { id := "b", type := ElType.component, x := 300 } Anchor.right Anchor.left
      none [] = [] :=
  direct_path_shortcut _ _ _ _ _ (by simp [getObstacleBounds])

/-- C10: on a history with at least two retained snapshots, undo restores
the previous snapshot and redo then restores the snapshot that was on top
of the undo stack before the undo, returning both stacks to their pre-undo
state. -/
theorem undo_redo_roundtrip (a b : Snap) (rest redoS : List Snap)
    (el : ElemMap) (sel : List String) :
    stateUndo ⟨el, sel, ⟨a :: b :: rest, redoS⟩⟩ =
      ⟨b, [], ⟨b :: rest, a :: redoS⟩⟩ ∧
    stateRedo (stateUndo ⟨el, sel, ⟨a :: b :: rest, redoS⟩⟩) =
      ⟨a, [], ⟨a :: b :: rest, redoS⟩⟩ := by
  exact ⟨rfl, rfl⟩

/-- `History.undo` is a no-op when at most one snapshot is retained. -/
lemma historyUndo_of_le_one (h : HistoryState) (hlen : h.undoStack.length ≤ 1) :
    historyUndo h = (none, h) := by
  obtain ⟨u, r⟩ := h
  match u with
  | [] => rfl
  | [s] => rfl
  | a :: b :: rest => simp at hlen

/-- A successful undo shortens the undo stack by one. -/
lemma historyUndoIter_length_le (n : Nat) :
    ∀ h : HistoryState, h.undoStack.length ≤ n + 1 →
      (historyUndoIter n h).undoStack.length ≤ 1 := by
  induction n with
  | zero => intro h hlen; simpa [historyUndoIter] using hlen
  | succ n ih =>
    intro h hlen
    obtain ⟨u, r⟩ := h
    match u with
    | [] =>
      simp only [historyUndoIter, historyUndo]
      exact ih _ (by simp)
    | [s] =>
      simp only [historyUndoIter, historyUndo]
      exact ih _ (by simp)
    | a :: b :: rest =>
      simp only [historyUndoIter, historyUndo]
      exact ih _ (by simpa using Nat.le_of_succ_le_succ hlen)

/-- C9: the history is a bounded stack.  Conjuncts, in order: undo at the
oldest retained snapshot is a no-op returning `null`; redo at the newest is
a no-op returning `null`; pushing clears the redo stack; pushing preserves
the 50-entry bound; pushing at the bound evicts the oldest entry; and after
as many undos as there are snapshots the state is a fixed point of undo
(repeated undo is total by construction and stops changing the state once
the oldest retained snapshot is reached). -/
theorem history_bounded_stack :
    (∀ h : HistoryState, h.undoStack.length ≤ 1 → historyUndo h = (none, h)) ∧
    (∀ h : HistoryState, h.redoStack = [] → historyRedo h = (none, h)) ∧
    (∀ (h : HistoryState) (s : Snap), (historyPush h s).redoStack = []) ∧
    (∀ (h : HistoryState) (s : Snap), h.undoStack.length ≤ historyMaxSize →
      (historyPush h s).undoStack.length ≤ historyMaxSize) ∧
    (∀ (h : HistoryState) (s : Snap), h.undoStack.length = historyMaxSize →
      (historyPush h s).undoStack = (s :: h.undoStack).dropLast) ∧
    (∀ h : HistoryState,
      historyUndo (historyUndoIter h.undoStack.length h) =
        (none, historyUndoIter h.undoStack.length h)) := by
  refine ⟨historyUndo_of_le_one, ?_, ?_, ?_, ?_, ?_⟩
  · intro h hr
    obtain ⟨u, r⟩ := h
    subst hr
    rfl
  · intro h s
    rfl
  · intro h s hlen
    simp only [historyPush, historyMaxSize] at *
    split
    · simpa using hlen
    · next hgt =>
      simp only [List.length_cons] at hgt ⊢
      omega
  · intro h s hlen
    simp [historyPush, hlen, historyMaxSize]
  · intro h
    exact historyUndo_of_le_one _
      (historyUndoIter_length_le _ _ (by omega))

/-- Witness for C9 at concrete inputs: the empty history and a history
holding exactly 50 snapshots. -/
theorem history_bounded_stack_witness :
    historyUndo ⟨[], []⟩ = (none, ⟨[], []⟩) ∧
    historyRedo ⟨[], []⟩ = (none, ⟨[], []⟩) ∧
    (historyPush ⟨[], []⟩ []).undoStack.length ≤ historyMaxSize ∧
    (historyPush ⟨List.replicate 50 [], []⟩ []).undoStack =
      (([] : Snap) :: List.replicate 50 []).dropLast := by
  obtain ⟨h1, h2, _, h4, h5, _⟩ := history_bounded_stack
  exact ⟨h1 ⟨[], []⟩ (by simp), h2 ⟨[], []⟩ rfl,
    h4 ⟨[], []⟩ [] (by simp [historyMaxSize]),
    h5 ⟨List.replicate 50 [], []⟩ [] (by simp [historyMaxSize])⟩

/-- One cleanup pass only removes interior points: the output is a sublist
of the input waypoint list. -/
lemma cleanupChain_sublist :
    ∀ (l : List Pt) (prev last : Pt), List.Sublist (cleanupChain prev (l ++ [last])) l
  | [], _, _ => by simp [cleanupChain]
  | [c], prev, last => by
    by_cases hk : keepWaypoint prev c last <;>
      simp [cleanupChain, hk]
  | c :: d :: l', prev, last => by
    have ih := cleanupChain_sublist (d :: l') c last
    by_cases hk : keepWaypoint prev c d
    · simpa [cleanupChain, hk] using ih.cons₂ c
    · simpa [cleanupChain, hk] using ih.cons c

/-- C6 (amended): cleanup is not idempotent, but a second pass can only
remove further points — it returns a sublist of the first pass's result. -/
theorem cleanup_second_pass_sublist (W : List Pt) (f t : Pt) :
    List.Sublist (cleanupWaypoints (cleanupWaypoints W f t) f t) (cleanupWaypoints W f t) := by
  by_cases h : cleanupWaypoints W f t = []
  · rw [h]
    simp [cleanupWaypoints]
  · conv_lhs => rw [cleanupWaypoints, if_neg h]
    exact cleanupChain_sublist _ f t

/-- C6 (counterexample): cleanup is not idempotent.  On
`W = [(50,0), (50,4), (100,0)]` with endpoints `(0,0)` and `(150,0)`, the
first pass drops the two near-duplicate points, leaving `[(100,0)]`, which
a second pass then drops as collinear with the endpoints. -/
theorem cleanup_not_idempotent :
    cleanupWaypoints [⟨50, 0⟩, ⟨50, 4⟩, ⟨100, 0⟩] ⟨0, 0⟩ ⟨150, 0⟩ = [⟨100, 0⟩] ∧
    cleanupWaypoints (cleanupWaypoints [⟨50, 0⟩, ⟨50, 4⟩, ⟨100, 0⟩] ⟨0, 0⟩ ⟨150, 0⟩)
        ⟨0, 0⟩ ⟨150, 0⟩ ≠
      cleanupWaypoints [⟨50, 0⟩, ⟨50, 4⟩, ⟨100, 0⟩] ⟨0, 0⟩ ⟨150, 0⟩ := by
  have h1 : cleanupWaypoints [(⟨50, 0⟩ : Pt), ⟨50, 4⟩, ⟨100, 0⟩] ⟨0, 0⟩ ⟨150, 0⟩
      = [⟨100, 0⟩] := by
    rw [cleanupWaypoints, if_neg (by simp)]
    norm_num [cleanupChain, keepWaypoint, dist2, crossMag]
  have h2 : cleanupWaypoints [(⟨100, 0⟩ : Pt)] ⟨0, 0⟩ ⟨150, 0⟩ = [] := by
    rw [cleanupWaypoints, if_neg (by simp)]
    norm_num [cleanupChain, keepWaypoint, dist2, crossMag]
  refine ⟨h1, ?_⟩
  rw [h1, h2]
  simp

/-- Invariant of the `calculateBestAnchors` minimisation loop: starting
from a current best pair (whose cost is the current minimum), the result is
either the unchanged best — and then nothing in the remaining list beats
it — or a strictly better pair from the remaining list, positioned after
only strictly costlier pairs (the strict `<` update keeps the first
minimiser) and before no strictly cheaper one. -/
lemma selectBest_spec (fe te : Elem) :
    ∀ (l : List (Anchor × Anchor)) (best : Anchor × Anchor),
    (selectBest fe te l best (some (adjustedCost fe te best)) = best ∧
      ∀ p ∈ l, adjustedCost fe te best ≤ adjustedCost fe te p) ∨
    (∃ l₁ l₂,
      l = l₁ ++ selectBest fe te l best (some (adjustedCost fe te best)) :: l₂ ∧
      adjustedCost fe te (selectBest fe te l best (some (adjustedCost fe te best))) <
        adjustedCost fe te best ∧
      (∀ p ∈ l₁,
        adjustedCost fe te (selectBest fe te l best (some (adjustedCost fe te best))) <
          adjustedCost fe te p) ∧
      (∀ p ∈ l₂,
        adjustedCost fe te (selectBest fe te l best (some (adjustedCost fe te best))) ≤
          adjustedCost fe te p)) := by
  intro l
  induction l with
  | nil =>
    intro best
    exact Or.inl ⟨rfl, by simp⟩
  | cons p rest ih =>
    intro best
    by_cases hc : adjustedCost fe te p < adjustedCost fe te best
    · have hstep :
          selectBest fe te (p :: rest) best (some (adjustedCost fe te best)) =
            selectBest fe te rest p (some (adjustedCost fe te p)) := by
        simp [selectBest, hc]
      rw [hstep]
      rcases ih p with ⟨heq, hmin⟩ | ⟨l₁, l₂, hsplit, hlt, hall₁, hall₂⟩
      · right
        refine ⟨[], rest, ?_, ?_, by simp, ?_⟩
        · rw [heq]
          simp
        · rw [heq]
          exact hc
        · intro q hq
          rw [heq]
          exact hmin q hq
      · right
        refine ⟨p :: l₁, l₂, ?_,
          lt_trans hlt hc, ?_, hall₂⟩
        · rw [List.cons_append, ← hsplit]
        · intro q hq
          rcases List.mem_cons.mp hq with hq | hq
          · exact hq ▸ hlt
          · exact hall₁ q hq
    · have hstep :
          selectBest fe te (p :: rest) best (some (adjustedCost fe te best)) =
            selectBest fe te rest best (some (adjustedCost fe te best)) := by
        simp [selectBest, hc]
      rw [hstep]
      rcases ih best with ⟨heq, hmin⟩ | ⟨l₁, l₂, hsplit, hlt, hall₁, hall₂⟩
      · left
        refine ⟨heq, ?_⟩
        intro q hq
        rcases List.mem_cons.mp hq with hq | hq
        · exact hq ▸ le_of_not_lt hc
        · exact hmin q hq
      · right
        refine ⟨p :: l₁, l₂, ?_, hlt, ?_, hall₂⟩
        · rw [List.cons_append, ← hsplit]
        · intro q hq
          rcases List.mem_cons.mp hq with hq | hq
          · exact hq ▸ lt_of_lt_of_le hlt (le_of_not_lt hc)
          · exact hall₁ q hq

/-- C5: `calculateBestAnchors` returns a pair from the 16 combinations
whose adjusted cost is ≤ the adjusted cost of every combination, and it is
the first combination achieving the minimum in the stable iteration order
(`top, bottom, left, right`, `fromAnchor` outer): every earlier combination
costs strictly more.  The selector is a total function by construction —
in particular it is defined when the two shapes coincide. -/
theorem best_anchors_minimize_cost (fe te : Elem) :
    calculateBestAnchors fe te ∈ anchorCombos ∧
    (∀ p ∈ anchorCombos,
      adjustedCost fe te (calculateBestAnchors fe te) ≤ adjustedCost fe te p) ∧
    ∃ l₁ l₂, anchorCombos = l₁ ++ calculateBestAnchors fe te :: l₂ ∧
      ∀ p ∈ l₁, adjustedCost fe te (calculateBestAnchors fe te) < adjustedCost fe te p := by
  have hstep : calculateBestAnchors fe te =
      selectBest fe te anchorCombos.tail (Anchor.top, Anchor.top)
        (some (adjustedCost fe te (Anchor.top, Anchor.top))) := rfl
  have hspec := selectBest_spec fe te anchorCombos.tail (Anchor.top, Anchor.top)
  have hcombos : anchorCombos = (Anchor.top, Anchor.top) :: anchorCombos.tail := rfl
  rw [hstep]
  set s := selectBest fe te anchorCombos.tail (Anchor.top, Anchor.top)
      (some (adjustedCost fe te (Anchor.top, Anchor.top))) with hs
  rcases hspec with ⟨heq, hmin⟩ | ⟨l₁, l₂, hsplit, hlt, hall₁, hall₂⟩
  · refine ⟨?_, ?_, [], anchorCombos.tail, ?_, by simp⟩
    · rw [heq, hcombos]
      exact List.mem_cons_self _ _
    · intro q hq
      rw [hcombos] at hq
      rcases List.mem_cons.mp hq with hq' | hq'
      · rw [heq, hq']
      · rw [heq]
        exact hmin q hq'
    · rw [List.nil_append, heq]
      exact hcombos
  · refine ⟨?_, ?_, (Anchor.top, Anchor.top) :: l₁, l₂, ?_, ?_⟩
    · rw [hcombos, hsplit]
      simp
    · intro q hq
      rw [hcombos] at hq
      rcases List.mem_cons.mp hq with hq' | hq'
      · rw [hq']
        exact le_of_lt hlt
      · rw [hsplit] at hq'
        rcases List.mem_append.mp hq' with hq2 | hq2
        · exact le_of_lt (hall₁ q hq2)
        · rcases List.mem_cons.mp hq2 with hq3 | hq3
          · rw [hq3]
          · exact hall₂ q hq3
    · rw [hcombos, hsplit]
      simp
    · intro q hq
      rcases List.mem_cons.mp hq with hq' | hq'
      · rw [hq']
        exact hlt
      · exact hall₁ q hq'

/-- Filtering preserves the first match of `find?` when that match passes
the filter: earlier elements never satisfy the search predicate, so they
cannot become the first match even if they survive the filter. -/
lemma find?_filter_of_found {α : Type} (l : List α) (p q : α → Bool) (a : α)
    (h : l.find? p = some a) (hqa : q a = true) :
    (l.filter q).find? p = some a := by
  induction l with
  | nil => simp at h
  | cons x xs ih =>
    by_cases hp : p x = true
    · have hax : a = x := by
        rw [List.find?_cons_of_pos _ hp] at h
        exact (Option.some_inj.mp h).symm
      subst hax
      rw [List.filter_cons_of_pos hqa, List.find?_cons_of_pos _ hp]
    · rw [List.find?_cons_of_neg _ (by simpa using hp)] at h
      by_cases hq : q x = true
      · rw [List.filter_cons_of_pos hq,
          List.find?_cons_of_neg _ (by simpa using hp)]
        exact ih h
      · rw [List.filter_cons_of_neg (by simpa using hq)]
        exact ih h

/-- A `mapGet` hit survives `List.filter` when the found binding passes the
filter predicate. -/
lemma mapGet_filter (m : ElemMap) (q : String × SElem → Bool) (key : String) (e : SElem)
    (h : mapGet m key = some e) (hq : q (key, e) = true) :
    mapGet (m.filter q) key = some e := by
  rw [mapGet] at h ⊢
  rcases hfind : m.find? fun ke => ke.1 = key with _ | pr
  · rw [hfind] at h
    simp at h
  · rw [hfind] at h
    have hpr2 : pr.2 = e := by simpa using h
    have hpr1 : pr.1 = key := by simpa using List.find?_some hfind
    have hpre : pr = (key, e) := by
      obtain ⟨a, b⟩ := pr
      simp only at hpr1 hpr2
      rw [hpr1, hpr2]
    rw [find?_filter_of_found _ _ q _ hfind (by rw [hpre]; exact hq)]
    simp [hpr2]

/-- C7: deleting a non-arrow element cascades.  The deleted id is gone, an
element survives iff it is neither the deleted element nor an arrow
referencing it (so exactly the N referencing connectors are removed), and
a diagram without dangling connector references stays without them. -/
theorem delete_element_cascades (m : ElemMap) (idd : String) (e : SElem)
    (hlook : mapGet m idd = some e) (hna : e.isArrow = false)
    (hwf : noDangling m) :
    mapGet (deleteElement m idd) idd = none ∧
    (∀ k el, (k, el) ∈ deleteElement m idd ↔
      ((k, el) ∈ m ∧ k ≠ idd ∧ ¬(el.isArrow = true ∧ el.refersTo idd = true))) ∧
    noDangling (deleteElement m idd) := by
  have hcascade : deleteElement m idd =
      (m.filter fun ke => !(ke.2.isArrow && ke.2.refersTo idd)).filter
        fun ke => ke.1 ≠ idd := by
    rw [deleteElement, hlook]
    simp [hna]
  have hmem : ∀ k el, (k, el) ∈ deleteElement m idd ↔
      ((k, el) ∈ m ∧ k ≠ idd ∧ ¬(el.isArrow = true ∧ el.refersTo idd = true)) := by
    intro k el
    rw [hcascade]
    cases hb : el.isArrow <;> cases hrb : el.refersTo idd <;>
      simp [List.mem_filter, hb, hrb, and_assoc, and_comm]
  refine ⟨?_, hmem, ?_⟩
  · rw [hcascade, mapGet]
    have hnone : ((m.filter fun ke => !(ke.2.isArrow && ke.2.refersTo idd)).filter
        fun ke => ke.1 ≠ idd).find? (fun ke => ke.1 = idd) = none := by
      rw [List.find?_eq_none]
      intro x hx
      have := (List.mem_filter.mp hx).2
      simpa using this
    rw [hnone]
    rfl
  · intro k f t w hmem2
    obtain ⟨hm, hk, hflt⟩ := (hmem k (SElem.arrow f t w)).mp hmem2
    have href : f ≠ idd ∧ t ≠ idd := by
      by_contra hcon
      apply hflt
      refine ⟨rfl, ?_⟩
      simp only [SElem.refersTo]
      rcases not_and_or.mp hcon with hcon | hcon
      · simp [not_not.mp hcon]
      · simp [not_not.mp hcon]
    obtain ⟨⟨ef, hef, hefna⟩, ⟨et, het, hetna⟩⟩ := hwf k f t w hm
    rw [hcascade]
    constructor
    · exact ⟨ef,
        mapGet_filter _ _ f ef
          (mapGet_filter _ _ f ef hef (by simp [hefna]))
          (by simp [href.1]),
        hefna⟩
    · exact ⟨et,
        mapGet_filter _ _ t et
          (mapGet_filter _ _ t et het (by simp [hetna]))
          (by simp [href.2]),
        hetna⟩

/-- A three-element diagram for the cascade-delete witness: two shapes and
one connector between them. -/
def demoMap : ElemMap :=
  [("s1", SElem.node SElemKind.component 0 0),
   ("s2", SElem.node SElemKind.component 200 0),
   ("a1", SElem.arrow "s1" "s2" [])]

/-- Witness for C7: deleting shape `s1` of `demoMap` removes it, removes
the connector `a1` referencing it, and leaves no dangling references. -/
theorem delete_element_cascades_witness :
    mapGet (deleteElement demoMap "s1") "s1" = none ∧
    (∀ k el, (k, el) ∈ deleteElement demoMap "s1" ↔
      ((k, el) ∈ demoMap ∧ k ≠ "s1" ∧
        ¬(el.isArrow = true ∧ el.refersTo "s1" = true))) ∧
    noDangling (deleteElement demoMap "s1") := by
  refine delete_element_cascades demoMap "s1" (SElem.node SElemKind.component 0 0)
    (by simp [mapGet, demoMap]) rfl ?_
  intro k f t w hm
  simp only [demoMap, List.mem_cons, List.not_mem_nil, or_false] at hm
  rcases hm with h | h | h
  · simp at h
  · simp at h
  · simp only [Prod.mk.injEq, SElem.arrow.injEq] at h
    obtain ⟨hk, hf, ht, hw⟩ := h
    subst hf
    subst ht
    exact ⟨⟨SElem.node SElemKind.component 0 0, by simp [mapGet, demoMap], rfl⟩,
           ⟨SElem.node SElemKind.component 200 0, by simp [mapGet, demoMap], rfl⟩⟩

/-- C8 (amended): `update_element` and `remove_element` with an id that is
not in the diagram abort with an element-not-found reply and leave the
diagram unchanged; `add_arrow` with a missing `from` endpoint does *not*
abort — it appends the arrow anyway, with defaulted anchors and an empty
waypoint list, leaving a dangling connector reference in the diagram. -/
theorem missing_endpoint_handling :
    (∀ (elements : List Elem) (idd : String) (upd : Elem → Elem),
      (elements.find? fun el => el.id = idd) = none →
      updateElementMcp elements idd upd = none) ∧
    (∀ (elements : List Elem) (idd : String),
      (elements.find? fun el => el.id = idd) = none →
      removeElement elements idd = none) ∧
    (∀ (elements : List Elem) (args : AddArrowArgs) (newId : String),
      (elements.find? fun el => el.id = args.fromId) = none →
      addArrow elements args newId =
        elements ++ [{ id := newId, type := ElType.arrow, fromId := args.fromId,
                       toId := args.toId, fromAnchor := args.fromAnchor.getD Anchor.right,
                       toAnchor := args.toAnchor.getD Anchor.left, waypoints := [] }]) := by
  refine ⟨?_, ?_, ?_⟩
  · intro elements idd upd h
    rw [updateElementMcp, h]
  · intro elements idd h
    rw [removeElement, h]
  · intro elements args newId h
    rcases hto : elements.find? fun el => el.id = args.toId with _ | te <;>
      simp [addArrow, h, hto]

/-- Witness for C8 (amended) on the empty diagram. -/
theorem missing_endpoint_handling_witness :
    updateElementMcp [] "x" (fun el => el) = none ∧
    removeElement [] "x" = none ∧
    addArrow [] ⟨"a", "b", none, none, none⟩ "arrow_1" =
      [] ++ [{ id := "arrow_1", type := ElType.arrow, fromId := "a", toId := "b",
               fromAnchor := Anchor.right, toAnchor := Anchor.left, waypoints := [] }] := by
  obtain ⟨h1, h2, h3⟩ := missing_endpoint_handling
  exact ⟨h1 [] "x" (fun el => el) rfl, h2 [] "x" rfl,
    h3 [] ⟨"a", "b", none, none, none⟩ "arrow_1" rfl⟩

/-- C8 (counterexample): on the empty diagram, `add_arrow` from `"a"` to
`"b"` does not abort with an element-not-found failure: it returns a
diagram containing an arrow whose `from` is `"a"` while no element `"a"`
exists — a dangling connector reference after a mutating tool operation. -/
theorem add_arrow_missing_endpoint_not_aborted :
    addArrow [] ⟨"a", "b", none, none, none⟩ "arrow_1" =
      [{ id := "arrow_1", type := ElType.arrow, fromId := "a", toId := "b",
         fromAnchor := Anchor.right, toAnchor := Anchor.left, waypoints := [] }] ∧
    ((addArrow [] ⟨"a", "b", none, none, none⟩ "arrow_1").find?
      fun el => el.id = "a") = none ∧
    ∃ el ∈ addArrow [] ⟨"a", "b", none, none, none⟩ "arrow_1",
      el.type = ElType.arrow ∧ el.fromId = "a" := by
  refine ⟨rfl, by simp [addArrow], ?_⟩
  exact ⟨{ id := "arrow_1", type := ElType.arrow, fromId := "a", toId := "b",
           fromAnchor := Anchor.right, toAnchor := Anchor.left, waypoints := [] },
    by simp [addArrow], rfl, rfl⟩

set_option maxHeartbeats 1600000 in
/-- C1 (amended): the waypoints computed by every primary routing branch
before cleanup form an orthogonal path (both router implementations), and
so do the both-horizontal and both-vertical fallback outputs.  (The
returned path itself can lose orthogonality: cleanup may delete bend
points, and the mixed-anchor fallback emits a middle corner sharing
neither coordinate with its neighbours — see the counterexample.) -/
theorem router_branch_orthogonality (fp tp : Pt) (fa ta : Anchor)
    (obstacles inter : List ElementBounds) :
    orthoPath (fp :: primaryWaypoints fp tp fa ta obstacles inter ++ [tp]) ∧
    orthoPath (fp :: editorRawWaypoints fp tp fa ta obstacles ++ [tp]) ∧
    (isHorizontal fa = isHorizontal ta →
      orthoPath (fp :: fallbackWaypoints fp tp fa ta obstacles ++ [tp])) := by
  refine ⟨?_, ?_, ?_⟩
  · cases fa <;> cases ta <;>
      simp only [primaryWaypoints, isHorizontal, Bool.and_self, Bool.and_true,
        Bool.and_false, Bool.not_true, Bool.not_false, if_true, if_false] <;>
      split_ifs <;>
      simp [orthoPath]
  · cases fa <;> cases ta <;>
      simp only [editorRawWaypoints, isHorizontal] <;>
      split_ifs <;>
      simp [orthoPath]
  · intro h
    cases fa <;> cases ta <;> simp [isHorizontal] at h <;>
      simp only [fallbackWaypoints, isHorizontal] <;>
      split_ifs <;>
      simp_all [orthoPath]

/-- Witness for C1 (amended) at a concrete input with opposite horizontal
anchors and one obstacle. -/
theorem router_branch_orthogonality_witness :
    orthoPath (⟨0, 0⟩ :: primaryWaypoints ⟨0, 0⟩ ⟨300, 7⟩ Anchor.right Anchor.left
      [⟨"z", 10, 10, 20, 20⟩] [⟨"z", 10, 10, 20, 20⟩] ++ [⟨300, 7⟩]) ∧
    orthoPath (⟨0, 0⟩ :: editorRawWaypoints ⟨0, 0⟩ ⟨300, 7⟩ Anchor.right Anchor.left
      [⟨"z", 10, 10, 20, 20⟩] ++ [⟨300, 7⟩]) ∧
    orthoPath (⟨0, 0⟩ :: fallbackWaypoints ⟨0, 0⟩ ⟨300, 7⟩ Anchor.right Anchor.left
      [⟨"z", 10, 10, 20, 20⟩] ++ [⟨300, 7⟩]) := by
  obtain ⟨h1, h2, h3⟩ := router_branch_orthogonality ⟨0, 0⟩ ⟨300, 7⟩ Anchor.right Anchor.left
    [⟨"z", 10, 10, 20, 20⟩] [⟨"z", 10, 10, 20, 20⟩]
  exact ⟨h1, h2, h3 rfl⟩

/-- Shapes for the C1 counterexample: connecting `a`'s right anchor to
`b`'s top anchor, with two further boxes blocking both the L-shape and the
3-point detour, drives the router into the mixed-anchor fallback. -/
def c1A : Elem :=
  { id := "a", type := ElType.component, x := 0, y := 0, width := some 100, height := some 80 }

/-- Target shape of the C1 counterexample. -/
def c1B : Elem :=
  { id := "b", type := ElType.component, x := 0, y := 100, width := some 100, height := some 80 }

/-- First blocking box of the C1 counterexample. -/
def c1O0 : Elem :=
  { id := "o0", type := ElType.component, x := 100, y := -50, width := some 100, height := some 80 }

/-- Second blocking box of the C1 counterexample. -/
def c1O1 : Elem :=
  { id := "o1", type := ElType.component, x := -100, y := 0, width := some 100, height := some 80 }

/-- Obstacle bounds of `c1O0`. -/
def c1Obs0 : ElementBounds := ⟨"o0", 100, -50, 100, 80⟩

/-- Obstacle bounds of `c1O1`. -/
def c1Obs1 : ElementBounds := ⟨"o1", -100, 0, 100, 80⟩

set_option maxHeartbeats 1600000 in
/-- Full evaluation of the router on the C1 counterexample layout: the
direct segment hits `o0`, the 3-point detour of the mixed branch is still
blocked, and the mixed fallback returns
`[(160,40), (260,140), (50,40)]`. -/
lemma c1RouterEval :
    calculateAutoWaypoints c1A c1B Anchor.right Anchor.top none [c1A, c1B, c1O0, c1O1] =
      [⟨160, 40⟩, ⟨260, 140⟩, ⟨50, 40⟩] := by
  have hfp : getAnchorPoint c1A Anchor.right = ⟨100, 40⟩ := by
    norm_num [getAnchorPoint, orDefault, c1A]
  have htp : getAnchorPoint c1B Anchor.top = ⟨50, 100⟩ := by
    norm_num [getAnchorPoint, orDefault, c1B]
  have hobs : getObstacleBounds [c1A, c1B, c1O0, c1O1]
      ([c1A.id, c1B.id].filter fun s => s ≠ "") = [c1Obs0, c1Obs1] := by
    simp [getObstacleBounds, c1A, c1B, c1O0, c1O1, c1Obs0, c1Obs1, orDefault,
      List.filterMap_cons, List.filter_cons]
  have hstart : calculateAutoWaypoints c1A c1B Anchor.right Anchor.top none
      [c1A, c1B, c1O0, c1O1] =
      routeFromPoints ⟨100, 40⟩ ⟨50, 100⟩ Anchor.right Anchor.top [c1Obs0, c1Obs1] := by
    show calcAutoCore c1A c1B Anchor.right Anchor.top [c1A, c1B, c1O0, c1O1] = _
    rw [calcAutoCore, hfp, htp, hobs]
  rw [hstart]
  have hinter : ([c1Obs0, c1Obs1].filter fun obs =>
      lineIntersectsRect ⟨100, 40⟩ ⟨50, 100⟩ obs 30) = [c1Obs0] := by
    simp [List.filter_cons, lineIntersectsRect, lineIntersectsLine, c1Obs0, c1Obs1]
    norm_num
  have hprimary : primaryWaypoints ⟨100, 40⟩ ⟨50, 100⟩ Anchor.right Anchor.top
      [c1Obs0, c1Obs1] [c1Obs0] = [⟨250, 40⟩, ⟨250, 150⟩, ⟨50, 150⟩] := by
    simp [primaryWaypoints, listMin, listMax, isHorizontal, isPathClear,
      lineIntersectsRect, lineIntersectsLine, c1Obs0, c1Obs1]
    norm_num
  have hclean : cleanupWaypoints [⟨250, 40⟩, ⟨250, 150⟩, ⟨50, 150⟩] ⟨100, 40⟩ ⟨50, 100⟩ =
      [⟨250, 40⟩, ⟨250, 150⟩, ⟨50, 150⟩] := by
    rw [cleanupWaypoints, if_neg (by simp)]
    norm_num [cleanupChain, keepWaypoint, dist2, crossMag]
  have hclear : allSegmentsClear [c1Obs0, c1Obs1]
      (⟨100, 40⟩ :: [⟨250, 40⟩, ⟨250, 150⟩, ⟨50, 150⟩] ++ [⟨50, 100⟩]) = false := by
    simp [allSegmentsClear, pathSegments, isPathClear, lineIntersectsRect,
      lineIntersectsLine, c1Obs0, c1Obs1]
    norm_num
  have hfall : fallbackWaypoints ⟨100, 40⟩ ⟨50, 100⟩ Anchor.right Anchor.top
      [c1Obs0, c1Obs1] = [⟨160, 40⟩, ⟨260, 140⟩, ⟨50, 40⟩] := by
    simp [fallbackWaypoints, listMin, listMax, isHorizontal, c1Obs0, c1Obs1]
    norm_num
  rw [routeFromPoints]
  simp only [hinter, hprimary, hclean, hclear, hfall]
  simp

set_option maxHeartbeats 1600000 in
/-- C1 (counterexample): on the `c1A … c1O1` layout the router's returned
full path `[fromPoint, ...waypoints, toPoint]` is not orthogonal — the
mixed-anchor fallback's corner `(260,140)` shares neither coordinate with
its neighbours `(160,40)` and `(50,40)`. -/
theorem router_output_not_orthogonal :
    ¬ orthoPath (getAnchorPoint c1A Anchor.right ::
      calculateAutoWaypoints c1A c1B Anchor.right Anchor.top none [c1A, c1B, c1O0, c1O1] ++
      [getAnchorPoint c1B Anchor.top]) := by
  rw [c1RouterEval]
  norm_num [orthoPath, getAnchorPoint, orDefault, c1A, c1B]

/-- Left shape of the concrete three-box scenario (C2). -/
def c2A : Elem :=
  { id := "a", type := ElType.component, x := 0, y := 0, width := some 100, height := some 80 }

/-- Right shape of the concrete three-box scenario (C2). -/
def c2B : Elem :=
  { id := "b", type := ElType.component, x := 300, y := 0, width := some 100, height := some 80 }

/-- Middle (blocking) shape of the concrete three-box scenario (C2). -/
def c2C : Elem :=
  { id := "c", type := ElType.component, x := 150, y := -20, width := some 100, height := some 80 }

/-- Obstacle bounds of `c2C`. -/
def c2Obs : ElementBounds := ⟨"c", 150, -20, 100, 80⟩

set_option maxHeartbeats 1600000 in
/-- Full evaluation of the router on the C2 scenario: the primary shelf
path crosses the middle box (its exit stub runs straight through it), so
the verified fallback shelf at `y = 120` is returned. -/
lemma c2RouterEval :
    calculateAutoWaypoints c2A c2B Anchor.right Anchor.left none [c2A, c2B, c2C] =
      [⟨100, 120⟩, ⟨300, 120⟩] := by
  have hfp : getAnchorPoint c2A Anchor.right = ⟨100, 40⟩ := by
    norm_num [getAnchorPoint, orDefault, c2A]
  have htp : getAnchorPoint c2B Anchor.left = ⟨300, 40⟩ := by
    norm_num [getAnchorPoint, orDefault, c2B]
  have hobs : getObstacleBounds [c2A, c2B, c2C] ([c2A.id, c2B.id].filter fun s => s ≠ "") =
      [c2Obs] := by
    simp [getObstacleBounds, c2A, c2B, c2C, c2Obs, orDefault, List.filterMap_cons,
      List.filter_cons]
  have hstart : calculateAutoWaypoints c2A c2B Anchor.right Anchor.left none [c2A, c2B, c2C] =
      routeFromPoints ⟨100, 40⟩ ⟨300, 40⟩ Anchor.right Anchor.left [c2Obs] := by
    show calcAutoCore c2A c2B Anchor.right Anchor.left [c2A, c2B, c2C] = _
    rw [calcAutoCore, hfp, htp, hobs]
  rw [hstart]
  have hinter : ([c2Obs].filter fun obs =>
      lineIntersectsRect ⟨100, 40⟩ ⟨300, 40⟩ obs 30) = [c2Obs] := by
    simp [List.filter_cons, lineIntersectsRect, lineIntersectsLine, c2Obs]
    norm_num
  have hprimary : primaryWaypoints ⟨100, 40⟩ ⟨300, 40⟩ Anchor.right Anchor.left [c2Obs] [c2Obs] =
      [⟨300, 40⟩, ⟨300, 110⟩, ⟨100, 110⟩, ⟨100, 40⟩] := by
    norm_num [primaryWaypoints, listMin, listMax, isHorizontal, c2Obs]
  have hclean : cleanupWaypoints [⟨300, 40⟩, ⟨300, 110⟩, ⟨100, 110⟩, ⟨100, 40⟩]
      ⟨100, 40⟩ ⟨300, 40⟩ = [⟨300, 40⟩, ⟨300, 110⟩, ⟨100, 110⟩, ⟨100, 40⟩] := by
    rw [cleanupWaypoints, if_neg (by simp)]
    norm_num [cleanupChain, keepWaypoint, dist2, crossMag]
  have hclear : allSegmentsClear [c2Obs]
      (⟨100, 40⟩ :: [⟨300, 40⟩, ⟨300, 110⟩, ⟨100, 110⟩, ⟨100, 40⟩] ++ [⟨300, 40⟩]) = false := by
    simp [allSegmentsClear, pathSegments, isPathClear, lineIntersectsRect,
      lineIntersectsLine, c2Obs]
    norm_num
  have hfall : fallbackWaypoints ⟨100, 40⟩ ⟨300, 40⟩ Anchor.right Anchor.left [c2Obs] =
      [⟨100, 120⟩, ⟨300, 120⟩] := by
    simp [fallbackWaypoints, listMin, listMax, isHorizontal, c2Obs]
    norm_num
  rw [routeFromPoints]
  simp only [hinter, hprimary, hclean, hclear, hfall]
  simp

set_option maxHeartbeats 1600000 in
/-- C2: on the three-box layout `(0,0,100,80)`, `(300,0,100,80)` with
`(150,-20,100,80)` between them, routing right→left returns a non-empty
waypoint list; its shelf lies at `y = 120 ≥ 60 + 50` (below the middle
box, beyond the router margin), and no segment of the resulting path
meets the region `x ∈ [150,250], y ∈ [-20,60]`. -/
theorem middle_obstacle_scenario :
    calculateAutoWaypoints c2A c2B Anchor.right Anchor.left none [c2A, c2B, c2C] =
      [⟨100, 120⟩, ⟨300, 120⟩] ∧
    calculateAutoWaypoints c2A c2B Anchor.right Anchor.left none [c2A, c2B, c2C] ≠ [] ∧
    (∀ p ∈ calculateAutoWaypoints c2A c2B Anchor.right Anchor.left none [c2A, c2B, c2C],
      p.y ≤ -20 - 50 ∨ 60 + 50 ≤ p.y) ∧
    ∀ s ∈ pathSegments (getAnchorPoint c2A Anchor.right ::
        calculateAutoWaypoints c2A c2B Anchor.right Anchor.left none [c2A, c2B, c2C] ++
        [getAnchorPoint c2B Anchor.left]),
      lineIntersectsRect s.1 s.2 ⟨"c", 150, -20, 100, 80⟩ 0 = false := by
  have hfp : getAnchorPoint c2A Anchor.right = ⟨100, 40⟩ := by
    norm_num [getAnchorPoint, orDefault, c2A]
  have htp : getAnchorPoint c2B Anchor.left = ⟨300, 40⟩ := by
    norm_num [getAnchorPoint, orDefault, c2B]
  refine ⟨c2RouterEval, ?_, ?_, ?_⟩
  · rw [c2RouterEval]
    simp
  · rw [c2RouterEval]
    intro p hp
    rcases List.mem_cons.mp hp with rfl | hp
    · norm_num
    · rcases List.mem_cons.mp hp with rfl | hp
      · norm_num
      · simp at hp
  · rw [c2RouterEval, hfp, htp]
    intro s hs
    simp only [List.cons_append, List.nil_append, pathSegments, List.zip, List.tail,
      List.zipWith] at hs
    rcases List.mem_cons.mp hs with rfl | hs
    · simp [lineIntersectsRect, lineIntersectsLine]
      norm_num
    · rcases List.mem_cons.mp hs with rfl | hs
      · simp [lineIntersectsRect, lineIntersectsLine]
        norm_num
      · rcases List.mem_cons.mp hs with rfl | hs
        · simp [lineIntersectsRect, lineIntersectsLine]
          norm_num
        · simp at hs

end DiagramEditor
